import Mathlib

/-!
Verification of the Fotcer table-normalization and incremental-sync pipeline.

Each definition below is a shallow embedding of a function of the repository
(`src/df_utils.py`, `src/fetchers.py`, `src/database_manager.py`,
`src/database_builder.py`, `src/football_tools.py`).  Pandas tables are
modelled as lists of rows, pandas `Series` extraction as positional lists,
and the external collaborators (HTTP fetch, SQL engine, string-similarity
scorer) as explicit function parameters.
-/

namespace Fotcer

/-! ### String helpers

Lean's own `String.trim`, `String.splitOn` and `String.toLower` are defined
through byte positions and do not reduce inside the kernel, so the embeddings
below use equivalent character-list implementations. -/

/-- Whitespace strip on a character list, mirroring Python `str.strip()`. -/
def trimChars (l : List Char) : List Char :=
  ((l.dropWhile (·.isWhitespace)).reverse.dropWhile (·.isWhitespace)).reverse

/-- Whitespace strip on a string, mirroring Python `str.strip()`. -/
def strTrim (s : String) : String :=
  String.mk (trimChars s.data)

/-- Case folding, mirroring Python `str.lower()` on the ASCII names involved. -/
def strLower (s : String) : String :=
  String.mk (s.data.map Char.toLower)

/-- Splitting a character list on a separator character, mirroring Python
`str.split(sep)` (adjacent separators produce empty segments, the empty
input produces one empty segment). -/
def splitCharsOn (sep : Char) : List Char → List (List Char)
  | [] => [[]]
  | c :: cs =>
    if c = sep then [] :: splitCharsOn sep cs
    else
      match splitCharsOn sep cs with
      | [] => [[c]]
      | s :: rest => (c :: s) :: rest

/-! ### Table model for `clean_table` (src/df_utils.py, lines 8-21)

A raw table is a flat column-name list plus rows of nullable string cells.
`astype(str)` renders a missing value (NaN) as the string "nan", which is what
the header-repeat comparison sees. -/

structure RawTable where
  cols : List String
  rows : List (List (Option String))
deriving DecidableEq

/-- Stringification of one cell, mirroring pandas `astype(str)` where a missing
value prints as "nan". -/
def cellStr : Option String → String
  | some s => s
  | none => "nan"

/-- Row predicate of `table.astype(str).isin(cols).all(axis=1)`: every
stringified cell is one of the column names. -/
def isHeaderRow (cols : List String) (row : List (Option String)) : Bool :=
  row.all (fun c => cols.contains (cellStr c))

/-- Row predicate of `dropna(how=all)`: every cell of the row is missing. -/
def isNullRow (row : List (Option String)) : Bool :=
  row.all (fun c => c.isNone)

/-- Embedding of `clean_table`: drop header-repeat rows, then drop fully-null
rows.  (For a two-level header the source first flattens the column names to
the second level; `cols` here is that flat name list.) -/
def cleanTable (t : RawTable) : RawTable :=
  { cols := t.cols
    rows := (t.rows.filter (fun r => !isHeaderRow t.cols r)).filter
      (fun r => !isNullRow r) }

/-! ### Score decomposition of `process_fixture` (src/df_utils.py, lines 23-38)

The source applies the Python regex
`(?:\((\d*)\)\s*)?(\d+)\s*-\s*(\d+)(?:\s*\((\d*)\))?` with `Series.str.extract`
(leftmost `re.search`) after replacing en-dash, em-dash and minus-sign
characters by a hyphen and stripping the cell.  Because every adjacent
character class of the pattern is disjoint (digits, whitespace, parentheses,
the hyphen), the Python backtracking search is equivalent to the deterministic
matcher below: at each start position, try the optional leading
parenthesised group, then `H-A`, then the optional trailing parenthesised
group. -/

/-- Numeric coercion of one captured digit group, mirroring
`pd.to_numeric(..., errors=coerce)`: the empty capture (from `(\d*)`) turns
into a missing value. -/
def digitsVal (ds : List Char) : Option Nat :=
  if ds.isEmpty then none
  else some (ds.foldl (fun a c => a * 10 + (c.toNat - 48)) 0)

/-- Matches `(\d+)\s*-\s*(\d+)(?:\s*\((\d*)\))?` at the head of `cs`,
returning the home digits, away digits and the optional trailing capture. -/
def matchScoreCore (cs : List Char) : Option (List Char × List Char × Option (List Char)) :=
  let (h, cs1) := cs.span (·.isDigit)
  if h.isEmpty then none
  else
    match cs1.dropWhile (·.isWhitespace) with
    | '-' :: cs3 =>
      let (a, cs5) := (cs3.dropWhile (·.isWhitespace)).span (·.isDigit)
      if a.isEmpty then none
      else
        match cs5.dropWhile (·.isWhitespace) with
        | '(' :: cs7 =>
          let (p, cs8) := cs7.span (·.isDigit)
          match cs8 with
          | ')' :: _ => some (h, a, some p)
          | _ => some (h, a, none)
        | _ => some (h, a, none)
    | _ => none

/-- Matches the full pattern anchored at the head of `cs`, including the
optional leading `(?:\((\d*)\)\s*)?` capture. -/
def matchScoreAt (cs : List Char) : Option (Option (List Char) × List Char × List Char × Option (List Char)) :=
  match cs with
  | '(' :: cs1 =>
    let (p0, cs2) := cs1.span (·.isDigit)
    match cs2 with
    | ')' :: cs3 =>
      match matchScoreCore (cs3.dropWhile (·.isWhitespace)) with
      | some (h, a, p3) => some (some p0, h, a, p3)
      | none => none
    | _ => none
  | c :: _ =>
    if c.isDigit then
      (matchScoreCore cs).map (fun r => (none, r))
    else none
  | [] => none

/-- Leftmost search of the score pattern, mirroring `re.search` as used by
`Series.str.extract`. -/
def searchScore : List Char → Option (Option (List Char) × List Char × List Char × Option (List Char))
  | [] => none
  | c :: cs =>
    match matchScoreAt (c :: cs) with
    | some r => some r
    | none => searchScore cs

/-- Dash normalization of `str.replace(r'[–—−]', '-', regex=True)`. -/
def normalizeDashChar (c : Char) : Char :=
  if c = '–' ∨ c = '—' ∨ c = '−' then '-' else c

/-- Embedding of the score decomposition of `process_fixture`: the four
integer-or-null fields (home score, away score, home penalty, away penalty)
extracted from one score cell. -/
def processScoreCell (s : String) : Option Nat × Option Nat × Option Nat × Option Nat :=
  let t := trimChars (s.data.map normalizeDashChar)
  match searchScore t with
  | some (p0, h, a, p3) =>
    (digitsVal h, digitsVal a, p0.bind digitsVal, p3.bind digitsVal)
  | none => (none, none, none, none)

/-! ### Match-code deduplication of `add_match_code` (src/df_utils.py, lines 40-77) -/

/-- Embedding of `list(dict.fromkeys(match_codes))`: order-preserving removal
of every duplicate, keeping the first occurrence of each code. -/
def dictFromKeys (l : List String) : List String :=
  l.foldl (fun acc x => if acc.contains x then acc else acc ++ [x]) []

/-- Modelled from the spec's words (refinement comparison only): deduplication
of consecutive repeats, removing only adjacent duplicates. -/
def consecutiveDedup : List String → List String
  | [] => []
  | [x] => [x]
  | x :: y :: rest =>
    if x = y then consecutiveDedup (y :: rest)
    else x :: consecutiveDedup (y :: rest)

/-- The code extraction of `add_match_code`: the fourth path segment of each
matching anchor href, then the dictionary-key deduplication. -/
def matchCodesOfHrefs (hrefs : List String) : List String :=
  dictFromKeys (hrefs.map (fun h => String.mk ((splitCharsOn '/' h.data).getD 3 [])))

/-! ### Champion-column split of `split_champion_column` (src/fetchers.py, lines 185-194) -/

/-- The Points cell after the split: either a coerced number or the filled
sentinel text. -/
inductive PointsCell where
  | num (n : Nat)
  | text (s : String)
deriving DecidableEq

/-- Embedding of `Series.str.rsplit('-', n=1)`: split on the last hyphen, if
any. -/
def rsplitHyphen (s : String) : Option (String × String) :=
  match splitCharsOn '-' s.data with
  | [] => none
  | [_] => none
  | parts =>
    some (String.mk (List.intercalate ['-'] parts.dropLast),
      String.mk (parts.getLastD []))

/-- Numeric coercion of a stripped trailing segment, mirroring
`pd.to_numeric(..., errors=coerce)` on the digit strings that occur in
champion cells. -/
def parseNumeric (s : String) : Option Nat :=
  if s.data.isEmpty then none
  else if s.data.all (·.isDigit) then
    some (s.data.foldl (fun a c => a * 10 + (c.toNat - 48)) 0)
  else none

/-- Embedding of `split_champion_column` at the level of one Champion cell:
split on the last hyphen, trim both sides, coerce the trailing segment to a
number, and fill a failed coercion (including the no-hyphen case, where the
split produces no second column) with the sentinel. -/
def splitChampionCell (cell : String) : String × PointsCell :=
  match rsplitHyphen cell with
  | some (l, r) =>
    (strTrim l,
      match parseNumeric (strTrim r) with
      | some n => PointsCell.num n
      | none => PointsCell.text "Season not finished yet")
  | none => (strTrim cell, PointsCell.text "Season not finished yet")

/-! ### Competition filter of `filter_competitions` (src/df_utils.py, lines 102-138) -/

/-- One row of the raw competition listing. -/
structure Competition where
  name : String
  gender : String
  category : String
  country : String
  governing : String
  index : String
deriving DecidableEq

/-- The four allow-lists of the competition filter configuration. -/
structure CompRules where
  governing : List String
  domestic : List String
  national : List String
  country : List String
deriving DecidableEq

/-- Embedding of `drop_duplicates(subset=[Competition Index])`: keep the first
row carrying each index, threading the set of indices already seen. -/
def dropDupByIndexAux (seen : List String) : List Competition → List Competition
  | [] => []
  | c :: rest =>
    if seen.contains c.index then dropDupByIndexAux seen rest
    else c :: dropDupByIndexAux (c.index :: seen) rest

/-- Deduplication of a competition list by `Competition Index`, keeping first
occurrences. -/
def dropDupByIndex (l : List Competition) : List Competition :=
  dropDupByIndexAux [] l

/-- Embedding of `filter_competitions`: restrict to male competitions, select
the domestic (category and country), national (competition name) and
club-international (governing body and fixed category) subsets, concatenate
them in the source's order, and deduplicate by competition index. -/
def filterCompetitions (rules : CompRules) (df : List Competition) : List Competition :=
  let dfM := df.filter (fun c => c.gender == "M")
  let domestic :=
    if !rules.domestic.isEmpty && !rules.country.isEmpty then
      dfM.filter (fun c =>
        rules.domestic.contains c.category && rules.country.contains c.country)
    else []
  let clubInternational :=
    if !rules.governing.isEmpty then
      dfM.filter (fun c =>
        rules.governing.contains c.governing && c.category == "Club International Cups")
    else []
  let national :=
    if !rules.national.isEmpty then
      dfM.filter (fun c => rules.national.contains c.name)
    else []
  dropDupByIndex (domestic ++ national ++ clubInternational)

/-! ### Persistence gateway (src/database_manager.py)

The SQL engine is the external collaborator: it is modelled as a function
from a query string to either a result table or an error.  `execute_query`
(lines 31-42) wraps any engine failure into a returned value rather than
letting it propagate; `delete_records` (lines 75-88) builds a parameterised
DELETE statement and discards the result of `execute_query`. -/

/-- Outcome of `execute_query`: either the queried rows or the caught
exception, returned as an ordinary value. -/
def executeQuery (runner : String → Except String (List (List String)))
    (query : String) : Sum (List (List String)) String :=
  match runner query with
  | Except.ok df => Sum.inl df
  | Except.error e => Sum.inr e

/-- The WHERE clause fragments `"col" = :param_i` of `delete_records`. -/
def whereClauses (conditions : List (String × String)) : List String :=
  (List.range conditions.length).zip conditions |>.map
    (fun p => "\"" ++ p.2.1 ++ "\" = :param_" ++ toString p.1)

/-- Embedding of `delete_records`: reject empty conditions, otherwise build the
DELETE statement, hand it to `execute_query` and ignore the outcome. -/
def deleteRecords (runner : String → Except String (List (List String)))
    (tableName : String) (conditions : List (String × String)) : Except String Unit :=
  if conditions.isEmpty then
    Except.error "Conditions must be provided for deletion."
  else
    let query := "DELETE FROM \"" ++ tableName ++ "\" WHERE "
      ++ String.intercalate " AND " (whereClauses conditions)
    let _ := executeQuery runner query
    Except.ok ()

/-! ### Fuzzy resolver of `_search_team_internal` (src/football_tools.py, lines 55-116)

The rapidfuzz `fuzz.WRatio` similarity metric is the external collaborator: it
is modelled as a scorer parameter returning a rational score out of 100.
`process.extract(..., limit=5)` returns the five best-scoring names in
descending score order. -/

/-- One entry of the team-name index (club or national team). -/
structure Team where
  name : String
  code : String
deriving DecidableEq

/-- Structured outcome of the resolver, capturing the status constant together
with the data carried by each message: the resolved code and name on SUCCESS,
the list of names shown on AMBIGUOUS, and the suggestion list shown on
NOT_FOUND. -/
inductive SearchResult where
  | success (code : String) (name : String)
  | confuse (found : List String)
  | notExists (recommends : List String)
deriving DecidableEq

/-- Embedding of `process.extract(team_name, names, limit=5, scorer=fuzz.WRatio)`:
score every name, sort by descending score (stably, earlier names first among
equal scores), and keep the top five. -/
def extractTop5 (scorer : String → String → ℚ) (query : String)
    (names : List String) : List (String × ℚ) :=
  (List.insertionSort (fun a b => b.2 ≤ a.2)
    (names.map (fun n => (n, scorer query n)))).take 5

/-- The high-confidence subset: extracted matches scoring at or above the
fixed threshold 90. -/
def highOf (scored : List (String × ℚ)) : List (String × ℚ) :=
  scored.filter (fun m => decide ((90 : ℚ) ≤ m.2))

/-- The suggestion list of the NOT_FOUND message: top-five matches scoring
strictly above 70 that are not among the high-confidence names. -/
def suggestionsOf (scored highly : List (String × ℚ)) : List String :=
  (scored.filter (fun m =>
    decide ((70 : ℚ) < m.2) && !((highly.map Prod.fst).contains m.1))).map Prod.fst

/-- The fuzzy tier of `_search_team_internal` (reached when no exact match
exists): extract the top five scored names, branch on the number of
high-confidence candidates, and fall back to suggestions. -/
def searchFuzzy (scorer : String → String → ℚ) (data : List Team)
    (query : String) : SearchResult :=
  let displayNames := data.map (·.name)
  if displayNames.isEmpty then
    SearchResult.notExists []
  else
    let scored := extractTop5 scorer query displayNames
    let highly := highOf scored
    match highly with
    | [m] =>
      match data.find? (fun t => t.name == m.1) with
      | some t => SearchResult.success t.code t.name
      | none => SearchResult.notExists (suggestionsOf scored highly)
    | [] => SearchResult.notExists (suggestionsOf scored highly)
    | _ => SearchResult.confuse (highly.map Prod.fst)

/-- Embedding of `_search_team_internal`: case-insensitive exact matching
first (one hit resolves, several are ambiguous), then the fuzzy tier. -/
def searchTeamInternal (scorer : String → String → ℚ) (data : List Team)
    (query : String) : SearchResult :=
  match data.filter (fun t => strLower t.name == strLower query) with
  | [t] => SearchResult.success t.code t.name
  | [] => searchFuzzy scorer data query
  | ts => SearchResult.confuse (ts.map (·.name))

/-! ### Incremental fixture sync (src/database_builder.py, lines 162-223)

The fixture branch of `build_database` is modelled as a state machine over a
database holding the Competition table, the per-competition History tables and
the per-competition Fixture tables.  The HTTP fetch layer is the external
collaborator `FetchFn`; `fetch_fixture` by (competition, season) returns
`none` when the season page does not exist (the caught-and-skipped case),
while the fetch by match code returns rows directly.  Every fetch and write is
recorded in an event trace so that what a run touches can be stated; row
payloads beyond the Season tag are left opaque. -/

/-- One row of a competition History table: its season label and its
`Match Code` cell (a real code or a sentinel string). -/
structure HistRow where
  season : String
  matchCode : String
deriving DecidableEq

/-- A History table: whether it carries a `# Squads` column, and its rows. -/
structure HistTable where
  hasSquads : Bool
  rows : List HistRow
deriving DecidableEq

/-- One row of a Fixture table: its Season tag and the rest of the row,
opaque. -/
structure FixtureRow where
  season : String
  payload : String
deriving DecidableEq

/-- The database state seen by the fixture branch. -/
structure SyncDB where
  hasCompetitionTable : Bool
  competitionRows : List Competition
  histories : List (String × HistTable)
  fixtures : List (String × List FixtureRow)
deriving DecidableEq

/-- The external fetch collaborator: `fetch_fixture(match_code=c)` and
`fetch_fixture(comp_name, comp_index, season)` (the latter returning `none`
when the season page fails to fetch). -/
structure FetchFn where
  byMatchCode : String → List String
  bySeason : String → String → String → Option (List String)

/-- Table-existence check plus read for History tables
(`is_table_existing` and `read_table`). -/
def lookupHistory (db : SyncDB) (name : String) : Option HistTable :=
  (db.histories.find? (fun p => p.1 == name)).map (·.2)

/-- Table-existence check plus read for Fixture tables. -/
def lookupFixture (db : SyncDB) (name : String) : Option (List FixtureRow) :=
  (db.fixtures.find? (fun p => p.1 == name)).map (·.2)

/-- Writing a fixture table wholesale (`if_exists=replace`), creating it when
absent. -/
def setFixture (db : SyncDB) (name : String) (rows : List FixtureRow) : SyncDB :=
  if db.fixtures.any (fun p => p.1 == name) then
    { db with fixtures := db.fixtures.map (fun p => if p.1 == name then (name, rows) else p) }
  else
    { db with fixtures := db.fixtures ++ [(name, rows)] }

/-- Row deduplication of `drop_duplicates()` inside `add_records`: full-row
equality, keeping first occurrences. -/
def dropDupRowsAux (seen : List FixtureRow) : List FixtureRow → List FixtureRow
  | [] => []
  | r :: rest =>
    if seen.contains r then dropDupRowsAux seen rest
    else r :: dropDupRowsAux (r :: seen) rest

/-- Embedding of `DatabaseManager.add_records` (src/database_manager.py,
lines 50-73): reject an empty batch, otherwise union with the existing rows,
drop duplicate rows and replace the table wholesale. -/
def addRecords (db : SyncDB) (tableName : String) (rows : List FixtureRow) :
    Except String SyncDB :=
  if rows.isEmpty then
    Except.error "The provided DataFrame is empty. Nothing to add."
  else
    match lookupFixture db tableName with
    | some existing => Except.ok (setFixture db tableName (dropDupRowsAux [] (existing ++ rows)))
    | none => Except.ok (setFixture db tableName rows)

/-- Effect of `delete_records(table_name, conditions=Season)` on the state: the
generated DELETE removes the season's rows; a failure (e.g. missing table) is
swallowed by `execute_query`, leaving the state unchanged. -/
def deleteSeasonRows (db : SyncDB) (tableName : String) (season : String) : SyncDB :=
  match lookupFixture db tableName with
  | some rows => setFixture db tableName (rows.filter (fun r => r.season != season))
  | none => db

/-- The seasons already persisted for a fixture table
(`exists_fixtures['Season'].tolist()`, or `[]` when the table is absent). -/
def existingFixtureSeasons (db : SyncDB) (tableName : String) : List String :=
  match lookupFixture db tableName with
  | some rows => rows.map (·.season)
  | none => []

/-- The available seasons and optional match codes extracted from a History
table: without a `# Squads` column the rows whose `Match Code` is the
"No data available" sentinel are excluded and the codes kept; with it, every
season is used and no codes exist. -/
def availSeasonsAndCodes (hist : HistTable) : List String × Option (List String) :=
  if !hist.hasSquads then
    ((hist.rows.filter (fun r => r.matchCode != "No data available")).map (·.season),
      some ((hist.rows.filter (fun r => r.matchCode != "No data available")).map (·.matchCode)))
  else
    (hist.rows.map (·.season), none)

/-- The update plan of the sync engine: the season indices to fetch, i.e.
`[i for i in range(len(avail_seasons)) if avail_seasons[i] not in
exists_seasons or i == 0]`. -/
def updatePlan (avail : List String) (existing : List String) : List Nat :=
  (List.range avail.length).filter
    (fun i => !(existing.contains (avail.getD i "")) || i == 0)

/-- One observable step of a fixture sync run. -/
inductive SyncEvent where
  | fetched (season : String)
  | wroteReplace (table : String) (season : String)
  | deleted (table : String) (season : String)
  | appended (table : String) (season : String)
deriving DecidableEq

/-- The inner loop of the fixture branch over the planned season indices:
fetch each planned season (by match code when available, else by season page),
skip it when no data comes back, and otherwise create the fixture table or
delete-then-append the season's rows.  Returns the event trace together with
either the final state or the first raised error. -/
def seasonsLoop (fetch : FetchFn) (comp : Competition) (tableName : String)
    (avail : List String) (codes : Option (List String)) :
    SyncDB → List Nat → List SyncEvent × Except String SyncDB
  | db, [] => ([], Except.ok db)
  | db, i :: rest =>
    let season := avail.getD i ""
    let fixture :=
      match codes with
      | some cs => some (fetch.byMatchCode (cs.getD i ""))
      | none => fetch.bySeason comp.name comp.index season
    match fixture with
    | none =>
      let (evs, r) := seasonsLoop fetch comp tableName avail codes db rest
      (SyncEvent.fetched season :: evs, r)
    | some rows =>
      let tagged := rows.map (fun p => FixtureRow.mk season p)
      if (lookupFixture db tableName).isNone then
        let db1 := setFixture db tableName tagged
        let (evs, r) := seasonsLoop fetch comp tableName avail codes db1 rest
        (SyncEvent.fetched season :: SyncEvent.wroteReplace tableName season :: evs, r)
      else
        let db1 := deleteSeasonRows db tableName season
        match addRecords db1 tableName tagged with
        | Except.error e =>
          ([SyncEvent.fetched season, SyncEvent.deleted tableName season], Except.error e)
        | Except.ok db2 =>
          let (evs, r) := seasonsLoop fetch comp tableName avail codes db2 rest
          (SyncEvent.fetched season :: SyncEvent.deleted tableName season ::
            SyncEvent.appended tableName season :: evs, r)

/-- The per-competition body of the fixture branch: require the competition's
History table (a missing one raises the structural error before anything is
fetched or written), compute the update plan against the persisted seasons,
and run the inner loop over the first five planned indices. -/
def syncFixtureComp (fetch : FetchFn) (db : SyncDB) (comp : Competition) :
    List SyncEvent × Except String SyncDB :=
  match lookupHistory db (comp.name ++ " History") with
  | none => ([], Except.error "You must build the History table before updating fixture.")
  | some hist =>
    let ac := availSeasonsAndCodes hist
    let tableName := comp.name ++ " Fixture"
    let plan := updatePlan ac.1 (existingFixtureSeasons db tableName)
    seasonsLoop fetch comp tableName ac.1 ac.2 db (plan.take 5)

/-- The loop of the fixture branch over the Competition table's rows,
propagating the first error (with the events already performed). -/
def syncFixturesLoop (fetch : FetchFn) :
    SyncDB → List Competition → List SyncEvent × Except String SyncDB
  | db, [] => ([], Except.ok db)
  | db, c :: rest =>
    match syncFixtureComp fetch db c with
    | (evs, Except.ok db1) =>
      let (evs2, r) := syncFixturesLoop fetch db1 rest
      (evs ++ evs2, r)
    | (evs, Except.error e) => (evs, Except.error e)

/-- Embedding of the `update_config['fixture']` branch of `build_database`:
require the Competition table, then process each of its rows. -/
def syncFixtures (fetch : FetchFn) (db : SyncDB) :
    List SyncEvent × Except String SyncDB :=
  if !db.hasCompetitionTable then
    ([], Except.error "You must build the Competition table before updating history.")
  else
    syncFixturesLoop fetch db db.competitionRows

/-- The seasons fetched during a run, in order, read off the event trace. -/
def fetchedSeasons (evs : List SyncEvent) : List String :=
  evs.filterMap (fun e =>
    match e with
    | SyncEvent.fetched s => some s
    | _ => none)

/-- The seasons written (by wholesale replace or by append) during a run, in
order, read off the event trace. -/
def writtenSeasons (evs : List SyncEvent) : List String :=
  evs.filterMap (fun e =>
    match e with
    | SyncEvent.wroteReplace _ s => some s
    | SyncEvent.appended _ s => some s
    | _ => none)

/-! ## Helper lemmas -/

/-- Applying the same two row filters a second time changes nothing. -/
theorem filter_pair_idem {α : Type} (p q : α → Bool) (l : List α) :
    (((l.filter p).filter q).filter p).filter q = (l.filter p).filter q := by
  simp only [List.filter_filter]
  exact List.filter_congr fun a _ => by cases q a <;> cases p a <;> rfl

/-- Membership through the fold of `dict.fromkeys`. -/
theorem dictFromKeys_go_mem (l : List String) : ∀ (acc : List String) (x : String),
    x ∈ l.foldl (fun acc c => if acc.contains c then acc else acc ++ [c]) acc ↔
      x ∈ acc ∨ x ∈ l := by
  induction l with
  | nil => intro acc x; simp
  | cons a l ih =>
    intro acc x
    simp only [List.foldl_cons]
    by_cases h : acc.contains a
    · have ha : a ∈ acc := by simpa [List.elem_iff] using h
      rw [if_pos h, ih]
      simp only [List.mem_cons]
      constructor
      · rintro (hx | hx)
        · exact Or.inl hx
        · exact Or.inr (Or.inr hx)
      · rintro (hx | rfl | hx)
        · exact Or.inl hx
        · exact Or.inl ha
        · exact Or.inr hx
    · rw [if_neg h, ih]
      simp only [List.mem_append, List.mem_singleton, List.mem_cons]
      tauto

/-- The fold of `dict.fromkeys` preserves freedom from duplicates. -/
theorem dictFromKeys_go_nodup (l : List String) : ∀ acc : List String, acc.Nodup →
    (l.foldl (fun acc c => if acc.contains c then acc else acc ++ [c]) acc).Nodup := by
  induction l with
  | nil => intro acc h; simpa using h
  | cons a l ih =>
    intro acc h
    simp only [List.foldl_cons]
    by_cases hc : acc.contains a
    · rw [if_pos hc]
      exact ih acc h
    · have ha : a ∉ acc := by simpa [List.elem_iff] using hc
      rw [if_neg hc]
      exact ih (acc ++ [a]) (by simp [List.nodup_append, h, ha])

/-- Trace-head equation for the fetched-season projection. -/
theorem fetchedSeasons_fetched (s : String) (evs : List SyncEvent) :
    fetchedSeasons (SyncEvent.fetched s :: evs) = s :: fetchedSeasons evs := rfl

/-- A wholesale write leaves the fetched-season projection unchanged. -/
theorem fetchedSeasons_wrote (t s : String) (evs : List SyncEvent) :
    fetchedSeasons (SyncEvent.wroteReplace t s :: evs) = fetchedSeasons evs := rfl

/-- A season delete leaves the fetched-season projection unchanged. -/
theorem fetchedSeasons_deleted (t s : String) (evs : List SyncEvent) :
    fetchedSeasons (SyncEvent.deleted t s :: evs) = fetchedSeasons evs := rfl

/-- An append leaves the fetched-season projection unchanged. -/
theorem fetchedSeasons_appended (t s : String) (evs : List SyncEvent) :
    fetchedSeasons (SyncEvent.appended t s :: evs) = fetchedSeasons evs := rfl

/-- A fetch leaves the written-season projection unchanged. -/
theorem writtenSeasons_fetched (s : String) (evs : List SyncEvent) :
    writtenSeasons (SyncEvent.fetched s :: evs) = writtenSeasons evs := rfl

/-- Trace-head equation of the written-season projection for a wholesale
write. -/
theorem writtenSeasons_wrote (t s : String) (evs : List SyncEvent) :
    writtenSeasons (SyncEvent.wroteReplace t s :: evs) = s :: writtenSeasons evs := rfl

/-- A season delete leaves the written-season projection unchanged. -/
theorem writtenSeasons_deleted (t s : String) (evs : List SyncEvent) :
    writtenSeasons (SyncEvent.deleted t s :: evs) = writtenSeasons evs := rfl

/-- Trace-head equation of the written-season projection for an append. -/
theorem writtenSeasons_appended (t s : String) (evs : List SyncEvent) :
    writtenSeasons (SyncEvent.appended t s :: evs) = s :: writtenSeasons evs := rfl

/-- With a fetch layer that never returns an empty row set, the inner loop
fetches exactly the seasons at the indices it is given, in order. -/
theorem seasonsLoop_fetched (fetch : FetchFn) (comp : Competition) (tableName : String)
    (avail : List String) (codes : Option (List String))
    (hmc : ∀ c, fetch.byMatchCode c ≠ [])
    (hbs : ∀ n i s rows, fetch.bySeason n i s = some rows → rows ≠ []) :
    ∀ (idxs : List ℕ) (db : SyncDB),
      fetchedSeasons (seasonsLoop fetch comp tableName avail codes db idxs).1 =
        idxs.map (fun i => avail.getD i "") := by
  intro idxs
  induction idxs with
  | nil => intro db; simp [seasonsLoop, fetchedSeasons]
  | cons i rest ih =>
    intro db
    simp only [seasonsLoop]
    have hfix : (match codes with
        | some cs => some (fetch.byMatchCode (cs.getD i ""))
        | none => fetch.bySeason comp.name comp.index (avail.getD i "")) = none ∨
        ∃ rows, (match codes with
          | some cs => some (fetch.byMatchCode (cs.getD i ""))
          | none => fetch.bySeason comp.name comp.index (avail.getD i "")) = some rows ∧
          rows ≠ [] := by
      cases codes with
      | some cs => exact Or.inr ⟨_, rfl, hmc _⟩
      | none =>
        cases hb : fetch.bySeason comp.name comp.index (avail.getD i "") with
        | none => exact Or.inl rfl
        | some rows => exact Or.inr ⟨rows, rfl, hbs _ _ _ _ hb⟩
    rcases hfix with hfix | ⟨rows, hfix, hrows⟩
    · simp only [hfix]
      simp only [fetchedSeasons_fetched, ih, List.map_cons]
    · simp only [hfix]
      have htag : (rows.map (fun p => FixtureRow.mk (avail.getD i "") p)).isEmpty = false := by
        simp [List.isEmpty_iff, hrows]
      by_cases hlk : (lookupFixture db tableName).isNone
      · rw [if_pos hlk]
        simp only [fetchedSeasons_fetched, fetchedSeasons_wrote, ih, List.map_cons]
      · rw [if_neg hlk]
        simp only [addRecords, htag, Bool.false_eq_true, if_false]
        cases hlk2 : lookupFixture (deleteSeasonRows db tableName (avail.getD i "")) tableName with
        | some existing =>
          simp only [hlk2]
          simp only [fetchedSeasons_fetched, fetchedSeasons_deleted,
            fetchedSeasons_appended, ih, List.map_cons]
        | none =>
          simp only [hlk2]
          simp only [fetchedSeasons_fetched, fetchedSeasons_deleted,
            fetchedSeasons_appended, ih, List.map_cons]

/-- Every season the inner loop writes, it fetched during the same run. -/
theorem seasonsLoop_written (fetch : FetchFn) (comp : Competition) (tableName : String)
    (avail : List String) (codes : Option (List String)) :
    ∀ (idxs : List ℕ) (db : SyncDB) (s : String),
      s ∈ writtenSeasons (seasonsLoop fetch comp tableName avail codes db idxs).1 →
      s ∈ fetchedSeasons (seasonsLoop fetch comp tableName avail codes db idxs).1 := by
  intro idxs
  induction idxs with
  | nil =>
    intro db s h
    simp [seasonsLoop, writtenSeasons] at h
  | cons i rest ih =>
    intro db s h
    simp only [seasonsLoop] at h ⊢
    cases hfix : (match codes with
        | some cs => some (fetch.byMatchCode (cs.getD i ""))
        | none => fetch.bySeason comp.name comp.index (avail.getD i "")) with
    | none =>
      simp only [hfix] at h ⊢
      simp only [writtenSeasons_fetched] at h
      simp only [fetchedSeasons_fetched]
      exact List.mem_cons_of_mem _ (ih db s h)
    | some rows =>
      simp only [hfix] at h ⊢
      by_cases hlk : (lookupFixture db tableName).isNone
      · rw [if_pos hlk] at h ⊢
        simp only [writtenSeasons_fetched, writtenSeasons_wrote] at h
        simp only [fetchedSeasons_fetched, fetchedSeasons_wrote]
        rcases List.mem_cons.mp h with rfl | hm
        · exact List.mem_cons_self _ _
        · exact List.mem_cons_of_mem _ (ih _ s hm)
      · rw [if_neg hlk] at h ⊢
        cases har : addRecords (deleteSeasonRows db tableName (avail.getD i "")) tableName
            (rows.map (fun p => FixtureRow.mk (avail.getD i "") p)) with
        | error e =>
          simp only [har] at h
          simp [writtenSeasons] at h
        | ok db2 =>
          simp only [har] at h ⊢
          simp only [writtenSeasons_fetched, writtenSeasons_deleted,
            writtenSeasons_appended] at h
          simp only [fetchedSeasons_fetched, fetchedSeasons_deleted,
            fetchedSeasons_appended]
          rcases List.mem_cons.mp h with rfl | hm
          · exact List.mem_cons_self _ _
          · exact List.mem_cons_of_mem _ (ih _ s hm)

/-- Elements surviving the index deduplication come from the input. -/
theorem dropDupByIndexAux_subset (l : List Competition) :
    ∀ (seen : List String) (c : Competition),
      c ∈ dropDupByIndexAux seen l → c ∈ l := by
  induction l with
  | nil => intro seen c h; simp [dropDupByIndexAux] at h
  | cons a l ih =>
    intro seen c h
    simp only [dropDupByIndexAux] at h
    by_cases hc : seen.contains a.index
    · rw [if_pos hc] at h
      exact List.mem_cons_of_mem a (ih seen c h)
    · rw [if_neg hc] at h
      rcases List.mem_cons.mp h with rfl | hm
      · exact List.mem_cons_self _ _
      · exact List.mem_cons_of_mem a (ih _ c hm)

/-- The index deduplication yields pairwise distinct indices, none of them
among the already-seen ones. -/
theorem dropDupByIndexAux_nodup (l : List Competition) : ∀ seen : List String,
    ((dropDupByIndexAux seen l).map (·.index)).Nodup ∧
      ∀ c ∈ dropDupByIndexAux seen l, c.index ∉ seen := by
  induction l with
  | nil => intro seen; simp [dropDupByIndexAux]
  | cons a l ih =>
    intro seen
    simp only [dropDupByIndexAux]
    by_cases hc : seen.contains a.index
    · rw [if_pos hc]
      exact ih seen
    · rw [if_neg hc]
      have ha : a.index ∉ seen := by simpa [List.elem_iff] using hc
      obtain ⟨ihn, ihs⟩ := ih (a.index :: seen)
      refine ⟨?_, ?_⟩
      · simp only [List.map_cons, List.nodup_cons]
        refine ⟨?_, ihn⟩
        intro hmem
        obtain ⟨c, hcmem, hcidx⟩ := List.mem_map.mp hmem
        exact ihs c hcmem (hcidx ▸ List.mem_cons_self _ _)
      · intro c hcmem
        rcases List.mem_cons.mp hcmem with rfl | hm
        · exact ha
        · intro hcs
          exact ihs c hm (List.mem_cons_of_mem _ hcs)

/-- Every input element is represented in the index deduplication by some
survivor carrying its index. -/
theorem dropDupByIndexAux_covers (l : List Competition) :
    ∀ (seen : List String) (x : Competition),
      x ∈ l → x.index ∉ seen →
      ∃ y, y ∈ dropDupByIndexAux seen l ∧ y.index = x.index := by
  induction l with
  | nil => intro seen x hx _; simp at hx
  | cons a l ih =>
    intro seen x hx hxs
    simp only [dropDupByIndexAux]
    by_cases hc : seen.contains a.index
    · rw [if_pos hc]
      rcases List.mem_cons.mp hx with rfl | hm
      · exact absurd (by simpa [List.elem_iff] using hc) hxs
      · exact ih seen x hm hxs
    · rw [if_neg hc]
      rcases List.mem_cons.mp hx with rfl | hm
      · exact ⟨x, List.mem_cons_self _ _, rfl⟩
      · by_cases heq : x.index = a.index
        · exact ⟨a, List.mem_cons_self _ _, heq.symm⟩
        · obtain ⟨y, hy, hyx⟩ := ih (a.index :: seen) x hm (by
            simp only [List.mem_cons]
            rintro (h | h)
            · exact heq h
            · exact hxs h)
          exact ⟨y, List.mem_cons_of_mem _ hy, hyx⟩

/-! ## Claim theorems -/

/-- C2: score decomposition yields the four documented integer-or-null fields:
`(2) 1-1 (4)` gives home 1, away 1, home penalty 2, away penalty 4; `2-0`
gives home 2, away 0 and null penalties (also with an en-dash); a non-matching
string gives four nulls, and the decomposition is a total function (no input
raises). -/
theorem claim_C2 :
    processScoreCell "(2) 1-1 (4)" = (some 1, some 1, some 2, some 4) ∧
      processScoreCell "2-0" = (some 2, some 0, none, none) ∧
      processScoreCell "2–0" = (some 2, some 0, none, none) ∧
      processScoreCell "abc" = (none, none, none, none) := by
  decide

/-- C6: champion-column splitting sends `Real Madrid - 95` to champion
`Real Madrid` with numeric points 95, and sends the literal sentinel
`Season not finished yet` to that same sentinel in both output fields, never
null. -/
theorem claim_C6 :
    splitChampionCell "Real Madrid - 95" = ("Real Madrid", PointsCell.num 95) ∧
      splitChampionCell "Season not finished yet" =
        ("Season not finished yet", PointsCell.text "Season not finished yet") := by
  decide

/-- C4 counterexample: the source deduplicates with `dict.fromkeys`, which
removes every duplicate (keeping first occurrences), not only adjacent ones:
on the code sequence `[a, b, a]` the two non-adjacent equal codes are NOT both
kept, contrary to the claim, whose consecutive-only deduplication would keep
all three entries. -/
theorem claim_C4_counterexample :
    dictFromKeys ["a1b2c3d4", "e5f6a7b8", "a1b2c3d4"] = ["a1b2c3d4", "e5f6a7b8"] ∧
      consecutiveDedup ["a1b2c3d4", "e5f6a7b8", "a1b2c3d4"] =
        ["a1b2c3d4", "e5f6a7b8", "a1b2c3d4"] ∧
      dictFromKeys ["a1b2c3d4", "e5f6a7b8", "a1b2c3d4"] ≠
        consecutiveDedup ["a1b2c3d4", "e5f6a7b8", "a1b2c3d4"] := by
  decide

/-- C4 (amended): match-code attachment deduplicates ALL repeats of the same
code before positional mapping, keeping the first occurrence of each code in
order: the result has no duplicates and exactly the same members as the
input. -/
theorem claim_C4 :
    (∀ l : List String,
        (dictFromKeys l).Nodup ∧ ∀ x : String, x ∈ dictFromKeys l ↔ x ∈ l) ∧
      dictFromKeys ["x", "y", "x", "z"] = ["x", "y", "z"] := by
  refine ⟨fun l => ⟨?_, fun x => ?_⟩, by decide⟩
  · exact dictFromKeys_go_nodup l [] (by simp)
  · unfold dictFromKeys
    rw [dictFromKeys_go_mem l [] x]
    simp

/-- C8: header/blank cleanup is idempotent: applying `clean_table` to its own
output returns that output unchanged. -/
theorem claim_C8 (t : RawTable) : cleanTable (cleanTable t) = cleanTable t := by
  unfold cleanTable
  exact congrArg (RawTable.mk t.cols) (filter_pair_idem _ _ t.rows)

/-- C1: the update plan of a fixture sync run consists exactly of the indices
of available seasons not in the persisted set together with index 0 (which is
always included, even when its season is already persisted); in particular
with persisted seasons 2021 and 2022 and available seasons 2023, 2022, 2021
(newest first) the plan touches exactly the season 2023, and index 0 is kept
even when fully persisted. -/
theorem claim_C1 :
    (∀ (avail existing : List String) (i : ℕ),
        i ∈ updatePlan avail existing ↔
          i < avail.length ∧ (avail.getD i "" ∉ existing ∨ i = 0)) ∧
      (updatePlan ["2023", "2022", "2021"] ["2021", "2022"]).map
          (fun i => ["2023", "2022", "2021"].getD i "") = ["2023"] ∧
      updatePlan ["2023", "2022"] ["2023", "2022"] = [0] := by
  refine ⟨fun avail existing i => ?_, by decide, by decide⟩
  simp [updatePlan, List.mem_filter, List.mem_range, List.elem_iff, and_comm]

/-- C10: the query executor returns any engine exception as an ordinary value
instead of raising, and consequently `delete_records` with non-empty
conditions always returns normally, even when the underlying DELETE fails
(e.g. because the target table does not exist). -/
theorem claim_C10 :
    (∀ (runner : String → Except String (List (List String))) (q e : String),
        runner q = Except.error e → executeQuery runner q = Sum.inr e) ∧
      ∀ (runner : String → Except String (List (List String)))
        (tableName : String) (conditions : List (String × String)),
        conditions ≠ [] → deleteRecords runner tableName conditions = Except.ok () := by
  constructor
  · intro runner q e h
    unfold executeQuery
    rw [h]
  · intro runner tableName conditions h
    unfold deleteRecords
    rw [if_neg (by simpa [List.isEmpty_iff] using h)]

/-- C10 witness: with an engine that fails every query (the table is absent),
the executor returns the error as a value and `delete_records` on one Season
condition still returns normally. -/
theorem claim_C10_witness :
    executeQuery (fun _ => Except.error "no such table: Arsenal Fixture") "SELECT 1" =
        Sum.inr "no such table: Arsenal Fixture" ∧
      deleteRecords (fun _ => Except.error "no such table: Arsenal Fixture")
          "Arsenal Fixture" [("Season", "2023")] = Except.ok () :=
  ⟨claim_C10.1 _ "SELECT 1" _ rfl, claim_C10.2 _ "Arsenal Fixture" _ (by decide)⟩

/-- C7 counterexample: the competition filter restricts the listing to male
competitions before any of the three allow-list subsets is selected, so a
female competition satisfying the domestic rule (category and country both
allowed) is excluded, contrary to the claimed union of the three subsets
alone. -/
theorem claim_C7_counterexample :
    let rules : CompRules := ⟨[], ["Domestic Leagues - 1st Tier"], [], ["ENG"]⟩
    let comp : Competition := ⟨"FA WSL", "F", "Domestic Leagues - 1st Tier", "ENG", "UEFA", "189"⟩
    comp.category ∈ rules.domestic ∧ comp.country ∈ rules.country ∧
      filterCompetitions rules [comp] = [] := by
  decide

/-- C7 (amended): over the listing first restricted to male competitions, the
filter output is exactly the union of the domestic, national-team and
club-international rule subsets deduplicated by competition index: every
output row is a male input row matched by one of the three rules, output
indices are pairwise distinct (each competition appears at most once), every
male domestic-rule match is represented (even if it fails the national-team
name rule), and a concrete male domestic match failing the national rule is
kept exactly once. -/
theorem claim_C7 :
    (∀ (rules : CompRules) (df : List Competition) (c : Competition),
        c ∈ filterCompetitions rules df →
          c ∈ df ∧ c.gender = "M" ∧
            ((c.category ∈ rules.domestic ∧ c.country ∈ rules.country) ∨
              c.name ∈ rules.national ∨
              (c.governing ∈ rules.governing ∧ c.category = "Club International Cups"))) ∧
      (∀ (rules : CompRules) (df : List Competition),
          ((filterCompetitions rules df).map (·.index)).Nodup) ∧
      (∀ (rules : CompRules) (df : List Competition) (c : Competition),
          c ∈ df → c.gender = "M" → c.category ∈ rules.domestic →
            c.country ∈ rules.country →
            ∃ y, y ∈ filterCompetitions rules df ∧ y.index = c.index) ∧
      filterCompetitions ⟨[], ["Domestic Leagues - 1st Tier"], ["La Liga"], ["ENG"]⟩
          [⟨"Premier League", "M", "Domestic Leagues - 1st Tier", "ENG", "UEFA", "9"⟩] =
        [⟨"Premier League", "M", "Domestic Leagues - 1st Tier", "ENG", "UEFA", "9"⟩] := by
  refine ⟨?_, ?_, ?_, by decide⟩
  · intro rules df c h
    simp only [filterCompetitions, dropDupByIndex] at h
    have h1 := dropDupByIndexAux_subset _ [] c h
    rw [List.mem_append, List.mem_append] at h1
    rcases h1 with (hd | hn) | hi
    · by_cases hg : (!rules.domestic.isEmpty && !rules.country.isEmpty) = true
      · rw [if_pos hg] at hd
        rw [List.mem_filter] at hd
        obtain ⟨hdm, hpred⟩ := hd
        rw [List.mem_filter] at hdm
        refine ⟨hdm.1, by simpa using hdm.2, Or.inl ?_⟩
        simp only [Bool.and_eq_true] at hpred
        exact ⟨by simpa [List.elem_iff] using hpred.1,
          by simpa [List.elem_iff] using hpred.2⟩
      · rw [if_neg hg] at hd
        simp at hd
    · by_cases hg : (!rules.national.isEmpty) = true
      · rw [if_pos hg] at hn
        rw [List.mem_filter] at hn
        obtain ⟨hdm, hpred⟩ := hn
        rw [List.mem_filter] at hdm
        exact ⟨hdm.1, by simpa using hdm.2,
          Or.inr (Or.inl (by simpa [List.elem_iff] using hpred))⟩
      · rw [if_neg hg] at hn
        simp at hn
    · by_cases hg : (!rules.governing.isEmpty) = true
      · rw [if_pos hg] at hi
        rw [List.mem_filter] at hi
        obtain ⟨hdm, hpred⟩ := hi
        rw [List.mem_filter] at hdm
        simp only [Bool.and_eq_true] at hpred
        exact ⟨hdm.1, by simpa using hdm.2,
          Or.inr (Or.inr ⟨by simpa [List.elem_iff] using hpred.1,
            by simpa using hpred.2⟩)⟩
      · rw [if_neg hg] at hi
        simp at hi
  · intro rules df
    simp only [filterCompetitions, dropDupByIndex]
    exact (dropDupByIndexAux_nodup _ []).1
  · intro rules df c hdf hM hcat hcountry
    simp only [filterCompetitions, dropDupByIndex]
    apply dropDupByIndexAux_covers _ [] c _ (by simp)
    have hg : (!rules.domestic.isEmpty && !rules.country.isEmpty) = true := by
      simp [List.isEmpty_iff, List.ne_nil_of_mem hcat, List.ne_nil_of_mem hcountry]
    apply List.mem_append_left
    apply List.mem_append_left
    rw [if_pos hg, List.mem_filter]
    refine ⟨List.mem_filter.mpr ⟨hdf, by simpa using hM⟩, ?_⟩
    simp only [Bool.and_eq_true]
    exact ⟨by simpa [List.elem_iff] using hcat,
      by simpa [List.elem_iff] using hcountry⟩

/-- C7 witness: a concrete male competition matching the domestic rule but not
the national-team name rule is represented in the filter output. -/
theorem claim_C7_witness :
    ∃ y, y ∈ filterCompetitions ⟨[], ["Domestic Leagues - 1st Tier"], ["La Liga"], ["ENG"]⟩
        [⟨"Premier League", "M", "Domestic Leagues - 1st Tier", "ENG", "UEFA", "9"⟩] ∧
      y.index = "9" :=
  claim_C7.2.2.1 ⟨[], ["Domestic Leagues - 1st Tier"], ["La Liga"], ["ENG"]⟩
    [⟨"Premier League", "M", "Domestic Leagues - 1st Tier", "ENG", "UEFA", "9"⟩]
    ⟨"Premier League", "M", "Domestic Leagues - 1st Tier", "ENG", "UEFA", "9"⟩
    (by decide) rfl (by decide) (by decide)

/-- C3: the fuzzy resolver returns SUCCESS with the entity's code on exactly
one case-insensitive exact match and AMBIGUOUS (listing the matches) on more
than one; otherwise it scores every name, keeps the top five, and returns
SUCCESS for exactly one candidate at or above 90, AMBIGUOUS listing all
candidates for more than one, and NOT_FOUND with the suggestions drawn from
the remaining top-five matches above 70 for none; concretely, "real madrid"
resolves to the Real Madrid code, two clubs both named "Rangers" are
ambiguous, and "Arsnal" with only "Arsenal" scoring at least 70 (below 90)
yields NOT_FOUND suggesting "Arsenal". -/
theorem claim_C3 :
    (∀ (scorer : String → String → ℚ) (data : List Team) (query : String) (t : Team),
        data.filter (fun u => strLower u.name == strLower query) = [t] →
        searchTeamInternal scorer data query = SearchResult.success t.code t.name) ∧
      (∀ (scorer : String → String → ℚ) (data : List Team) (query : String)
          (t1 t2 : Team) (ts : List Team),
          data.filter (fun u => strLower u.name == strLower query) = t1 :: t2 :: ts →
          searchTeamInternal scorer data query =
            SearchResult.confuse ((t1 :: t2 :: ts).map (·.name))) ∧
      (∀ (scorer : String → String → ℚ) (data : List Team) (query n : String)
          (s : ℚ) (t : Team),
          data.filter (fun u => strLower u.name == strLower query) = [] →
          highOf (extractTop5 scorer query (data.map (·.name))) = [(n, s)] →
          data.find? (fun u => u.name == n) = some t →
          searchTeamInternal scorer data query = SearchResult.success t.code t.name) ∧
      (∀ (scorer : String → String → ℚ) (data : List Team) (query : String)
          (m1 m2 : String × ℚ) (ms : List (String × ℚ)),
          data.filter (fun u => strLower u.name == strLower query) = [] →
          highOf (extractTop5 scorer query (data.map (·.name))) = m1 :: m2 :: ms →
          searchTeamInternal scorer data query =
            SearchResult.confuse ((m1 :: m2 :: ms).map Prod.fst)) ∧
      (∀ (scorer : String → String → ℚ) (data : List Team) (query : String),
          data.filter (fun u => strLower u.name == strLower query) = [] →
          highOf (extractTop5 scorer query (data.map (·.name))) = [] →
          searchTeamInternal scorer data query =
            SearchResult.notExists
              (suggestionsOf (extractTop5 scorer query (data.map (·.name))) [])) ∧
      searchTeamInternal (fun _ _ => 0)
          [⟨"Real Madrid", "53a2f082"⟩, ⟨"Barcelona", "206d90db"⟩] "real madrid" =
        SearchResult.success "53a2f082" "Real Madrid" ∧
      searchTeamInternal (fun _ _ => 0)
          [⟨"Rangers", "sco-rangers"⟩, ⟨"Rangers", "usa-rangers"⟩] "Rangers" =
        SearchResult.confuse ["Rangers", "Rangers"] ∧
      searchTeamInternal (fun _ n => if n == "Arsenal" then 80 else 10)
          [⟨"Arsenal", "18bb7c10"⟩, ⟨"Chelsea", "cff3d9bb"⟩] "Arsnal" =
        SearchResult.notExists ["Arsenal"] := by
  refine ⟨?_, ?_, ?_, ?_, ?_, by decide, by decide, by decide⟩
  · intro scorer data query t h
    unfold searchTeamInternal
    rw [h]
  · intro scorer data query t1 t2 ts h
    unfold searchTeamInternal
    rw [h]
  · intro scorer data query n s t hfilter hhigh hfind
    have hne : data ≠ [] := by
      rintro rfl
      simp [extractTop5, highOf] at hhigh
    unfold searchTeamInternal
    rw [hfilter]
    simp [searchFuzzy, hhigh, hfind, List.isEmpty_iff, hne]
  · intro scorer data query m1 m2 ms hfilter hhigh
    have hne : data ≠ [] := by
      rintro rfl
      simp [extractTop5, highOf] at hhigh
    unfold searchTeamInternal
    rw [hfilter]
    simp [searchFuzzy, hhigh, List.isEmpty_iff, hne]
  · intro scorer data query hfilter hhigh
    by_cases hne : data = []
    · subst hne
      simp [searchTeamInternal, searchFuzzy, extractTop5, suggestionsOf]
    · unfold searchTeamInternal
      rw [hfilter]
      simp [searchFuzzy, hhigh, List.isEmpty_iff, hne]

/-- C3 witness: a single case-insensitive exact match resolves with the
entity's code. -/
theorem claim_C3_witness :
    searchTeamInternal (fun _ _ => 0) [⟨"Liverpool", "822bd0ba"⟩] "LIVERPOOL" =
      SearchResult.success "822bd0ba" "Liverpool" :=
  claim_C3.1 (fun _ _ => 0) [⟨"Liverpool", "822bd0ba"⟩] "LIVERPOOL"
    ⟨"Liverpool", "822bd0ba"⟩ (by decide)

/-- C5: when the fixture branch runs and the first competition's History table
does not exist, the structural error is raised immediately: the run returns
that error with an empty event trace, so no fixture table was created or
modified, and nothing is retried. -/
theorem claim_C5 (fetch : FetchFn) (db : SyncDB) (c : Competition)
    (rest : List Competition)
    (h1 : db.hasCompetitionTable = true) (h2 : db.competitionRows = c :: rest)
    (h3 : lookupHistory db (c.name ++ " History") = none) :
    syncFixtures fetch db =
      ([], Except.error "You must build the History table before updating fixture.") := by
  simp [syncFixtures, h1, h2, syncFixturesLoop, syncFixtureComp, h3]

/-- C5 witness: a concrete database holding only the Competition table (one
competition, no History tables) makes the fixture branch fail with the
structural error and an empty event trace. -/
theorem claim_C5_witness :
    syncFixtures ⟨fun _ => ["row"], fun _ _ _ => none⟩
        ⟨true, [⟨"Champions League", "M", "Club International Cups", "", "UEFA", "8"⟩], [], []⟩ =
      ([], Except.error "You must build the History table before updating fixture.") :=
  claim_C5 _ _ ⟨"Champions League", "M", "Club International Cups", "", "UEFA", "8"⟩ []
    rfl rfl rfl

/-- C9: a fixture sync run over a competition fetches exactly the seasons at
the first five indices of the update plan (at most five per competition, even
when the plan is longer, so plan entries beyond the fifth are left un-synced
for the run), and every season written during the run is one of those
first-five planned seasons.  The fetch layer is assumed to return non-empty
row sets, matching the source pages. -/
theorem claim_C9 (fetch : FetchFn) (db : SyncDB) (comp : Competition) (hist : HistTable)
    (hh : lookupHistory db (comp.name ++ " History") = some hist)
    (hmc : ∀ c, fetch.byMatchCode c ≠ [])
    (hbs : ∀ n i s rows, fetch.bySeason n i s = some rows → rows ≠ []) :
    fetchedSeasons (syncFixtureComp fetch db comp).1 =
      ((updatePlan (availSeasonsAndCodes hist).1
            (existingFixtureSeasons db (comp.name ++ " Fixture"))).take 5).map
        (fun i => (availSeasonsAndCodes hist).1.getD i "") ∧
      (fetchedSeasons (syncFixtureComp fetch db comp).1).length ≤ 5 ∧
      ∀ s ∈ writtenSeasons (syncFixtureComp fetch db comp).1,
        s ∈ ((updatePlan (availSeasonsAndCodes hist).1
              (existingFixtureSeasons db (comp.name ++ " Fixture"))).take 5).map
          (fun i => (availSeasonsAndCodes hist).1.getD i "") := by
  have hcomp : syncFixtureComp fetch db comp =
      seasonsLoop fetch comp (comp.name ++ " Fixture") (availSeasonsAndCodes hist).1
        (availSeasonsAndCodes hist).2 db
        ((updatePlan (availSeasonsAndCodes hist).1
          (existingFixtureSeasons db (comp.name ++ " Fixture"))).take 5) := by
    simp only [syncFixtureComp, hh]
  rw [hcomp]
  have hf := seasonsLoop_fetched fetch comp (comp.name ++ " Fixture")
    (availSeasonsAndCodes hist).1 (availSeasonsAndCodes hist).2 hmc hbs
    ((updatePlan (availSeasonsAndCodes hist).1
      (existingFixtureSeasons db (comp.name ++ " Fixture"))).take 5) db
  refine ⟨hf, ?_, ?_⟩
  · rw [hf]
    simp only [List.length_map, List.length_take]
    omega
  · intro s hs
    rw [← hf]
    exact seasonsLoop_written fetch comp (comp.name ++ " Fixture")
      (availSeasonsAndCodes hist).1 (availSeasonsAndCodes hist).2 _ db s hs

/-- C9 witness: with history seasons 2023, 2022, 2021 (newest first) and
persisted fixture seasons 2021 and 2022, the run fetches exactly the season
2023. -/
theorem claim_C9_witness :
    fetchedSeasons (syncFixtureComp
        ⟨fun _ => ["m"], fun _ _ _ => some ["m"]⟩
        ⟨true, [], [("Premier League History", ⟨true, [⟨"2023", ""⟩, ⟨"2022", ""⟩, ⟨"2021", ""⟩]⟩)],
          [("Premier League Fixture", [⟨"2021", "r"⟩, ⟨"2022", "r"⟩])]⟩
        ⟨"Premier League", "M", "Domestic Leagues - 1st Tier", "ENG", "UEFA", "9"⟩).1 = ["2023"] :=
  ((claim_C9 ⟨fun _ => ["m"], fun _ _ _ => some ["m"]⟩
      ⟨true, [], [("Premier League History", ⟨true, [⟨"2023", ""⟩, ⟨"2022", ""⟩, ⟨"2021", ""⟩]⟩)],
        [("Premier League Fixture", [⟨"2021", "r"⟩, ⟨"2022", "r"⟩])]⟩
      ⟨"Premier League", "M", "Domestic Leagues - 1st Tier", "ENG", "UEFA", "9"⟩
      ⟨true, [⟨"2023", ""⟩, ⟨"2022", ""⟩, ⟨"2021", ""⟩]⟩ (by decide)
      (fun _ => List.cons_ne_nil _ _)
      (fun n i s rows h => by
        simp only [Option.some.injEq] at h
        subst h
        exact List.cons_ne_nil _ _)).1).trans
    (by decide)

end Fotcer
